import Mathlib

/-!
Verification of the `qt-auto-binding` DSL parser pipeline.

Shallow embedding of:
- `qt-auto-binding-core/src/parse/ty.rs` (type resolver),
- `qt-auto-binding-core/src/parse/qobjects.rs` and `qobjects/check.rs`
  (object builder and semantic checks),
- `qt-auto-binding-core/src/check.rs` (checker combinator),
- `qt-auto-binding-core/src/diagnostic.rs` (diagnostics),
- `qt-auto-binding-build/src/parse/mod.rs` (module graph crawler).

Spans are abstract identifiers (`Nat`); `syn` data structures are embedded
structurally with a span attached where the source calls `.span()`.
The external `syn` parser (`parse2` / `parse_file`) is not part of this
repository; its outcome is modelled as an input value (`Except SynError _`
for token streams, `ReadResult` for module files).
-/

namespace QtAutoBinding

/-- A source span, abstracted to an identifier. -/
abbrev Span := Nat

/-- An identifier token with its span (`proc_macro2::Ident`). -/
structure Ident where
  name : String
  span : Span
deriving DecidableEq

mutual

/-- Embeds `syn::Type`: a path type, a pointer type, or any other form.
`from_type` only distinguishes these three cases. -/
inductive SynType : Type where
  | path : TypePath → SynType
  | ptr : Span → SynType
  | other : Span → SynType

/-- Embeds `syn::TypePath { qself, path }`, with the span `.span()` returns. -/
inductive TypePath : Type where
  | mk : Option Unit → SynPath → Span → TypePath

/-- Embeds `syn::Path { leading_colon, segments }`. -/
inductive SynPath : Type where
  | mk : Bool → List PathSegment → SynPath

/-- Embeds `syn::PathSegment { ident, arguments }`. -/
inductive PathSegment : Type where
  | mk : Ident → PathArguments → PathSegment

/-- Embeds `syn::PathArguments`. -/
inductive PathArguments : Type where
  | none : PathArguments
  | angleBracketed : List GenericArgument → PathArguments
  | parenthesized : PathArguments

/-- Embeds `syn::GenericArgument`: a type argument or any other kind. -/
inductive GenericArgument : Type where
  | type : SynType → GenericArgument
  | lifetime : GenericArgument

end

/-- The `qself` field accessor. -/
def TypePath.qself : TypePath → Option Unit
  | .mk q _ _ => q

/-- The `path` field accessor. -/
def TypePath.path : TypePath → SynPath
  | .mk _ p _ => p

/-- The `.span()` of a `TypePath`. -/
def TypePath.span : TypePath → Span
  | .mk _ _ s => s

/-- The `segments` field accessor. -/
def SynPath.segments : SynPath → List PathSegment
  | .mk _ s => s

/-- The `ident` field accessor. -/
def PathSegment.ident : PathSegment → Ident
  | .mk i _ => i

/-- The `arguments` field accessor. -/
def PathSegment.arguments : PathSegment → PathArguments
  | .mk _ a => a

/-- The `syn::PathArguments::is_empty`: `None` is empty, an angle-bracketed
list is empty when it has no arguments, a parenthesized list is not. -/
def PathArguments.isEmpty : PathArguments → Bool
  | .none => true
  | .angleBracketed args => args.isEmpty
  | .parenthesized => false

/-- The `.span()` of a `syn::Type`. -/
def SynType.span : SynType → Span
  | .path tp => tp.span
  | .ptr s => s
  | .other s => s

/-- Diagnostic levels, from `diagnostic.rs`. -/
inductive Level : Type where
  | error
  | warning
  | note
  | help
deriving DecidableEq

/-- A diagnostic, from `diagnostic.rs`: level, message, spans, children. -/
inductive Diagnostic : Type where
  | mk : Level → String → List Span → List Diagnostic → Diagnostic

/-- The `level` field accessor. -/
def Diagnostic.level : Diagnostic → Level
  | .mk l _ _ _ => l

/-- The `message` field accessor. -/
def Diagnostic.message : Diagnostic → String
  | .mk _ m _ _ => m

/-- The `spans` field accessor. -/
def Diagnostic.spans : Diagnostic → List Span
  | .mk _ _ s _ => s

/-- The `children` field accessor. -/
def Diagnostic.children : Diagnostic → List Diagnostic
  | .mk _ _ _ c => c

/-- The `Diagnostic::new(level)`. -/
def Diagnostic.new (level : Level) : Diagnostic :=
  .mk level "" [] []

/-- The `Diagnostic::with_message`. -/
def Diagnostic.withMessage (d : Diagnostic) (message : String) : Diagnostic :=
  .mk d.level message d.spans d.children

/-- The `Diagnostic::with_span`: replaces the spans with a singleton. -/
def Diagnostic.withSpan (d : Diagnostic) (span : Span) : Diagnostic :=
  .mk d.level d.message [span] d.children

/-- The `Diagnostic::add_child`: appends a child diagnostic. -/
def Diagnostic.addChild (d : Diagnostic) (child : Diagnostic) : Diagnostic :=
  .mk d.level d.message d.spans (d.children ++ [child])

/-- The `Type` enum of `qt-auto-binding-core/src/lib.rs` (named `Ty` here).
Note: it has no variant for a bare owner-marker type. -/
inductive Ty : Type where
  | i32
  | u32
  | i64
  | u64
  | f32
  | f64
  | string
  | byteArray
  | mutPtr : SynType → Ty
  | constPtr : SynType → Ty

/-- The `IteratorExt::single` from `ext/iter.rs`: the first element when the
list has exactly one element, `none` otherwise. -/
def single {α : Type} (xs : List α) : Option α :=
  let first := xs.head?
  let second := xs.tail.head?
  match first, second with
  | some result, Option.none => some result
  | _, _ => Option.none

/-- The help message of `create_unsupported` in `ty.rs`. -/
def supportedTypesMsg : String :=
  "Supported types are `i32`, `u32`, `i64`, `u64`, `f32`, `f64`, `String`, `Vec<u8>` and pointers to other QObjects."

/-- The `create_unsupported` from `ty.rs`: the error diagnostic at the given
span with a help child listing the supported spellings. -/
def createUnsupported (span : Span) : Except Diagnostic Ty :=
  let help := (Diagnostic.new .help).withMessage supportedTypesMsg
  let diagnostic :=
    (((Diagnostic.new .error).withMessage
        "This type is not supported by qt_binding").withSpan span).addChild help
  .error diagnostic

/-- The `create_no_argument_type` from `ty.rs`: resolves a zero-argument
single-segment identifier. -/
def createNoArgumentType (ty : TypePath) (segment : PathSegment) : Except Diagnostic Ty :=
  let ident := segment.ident.name
  if ident = "i32" then .ok .i32
  else if ident = "u32" then .ok .u32
  else if ident = "i64" then .ok .i64
  else if ident = "u64" then .ok .u64
  else if ident = "f32" then .ok .f32
  else if ident = "f64" then .ok .f64
  else if ident = "String" then .ok .string
  else createUnsupported ty.span

/-- The `has_no_qself` from `ty.rs`. -/
def hasNoQself (ty : TypePath) : Bool :=
  ty.qself.isNone

/-- The `has_no_argument` from `ty.rs`. -/
def hasNoArgument (segment : PathSegment) : Bool :=
  segment.arguments.isEmpty

/-- The `map_single_segment` from `ty.rs`. -/
def mapSingleSegment (ty : TypePath) : Option PathSegment :=
  match single ty.path.segments with
  | some segment => some segment
  | Option.none => Option.none

/-- The `map_angle_bracketed` from `ty.rs`. -/
def mapAngleBracketed (argument : PathArguments) : Option (List GenericArgument) :=
  match argument with
  | .angleBracketed argument => some argument
  | _ => Option.none

/-- The `map_single_argument` from `ty.rs`. -/
def mapSingleArgument (arguments : List GenericArgument) : Option GenericArgument :=
  match single arguments with
  | some argument => some argument
  | Option.none => Option.none

/-- The `map_type_argument` from `ty.rs`. -/
def mapTypeArgument (argument : GenericArgument) : Option SynType :=
  match argument with
  | .type argument => some argument
  | _ => Option.none

/-- The `map_path_type` from `ty.rs`. -/
def mapPathType (ty : SynType) : Option TypePath :=
  match ty with
  | .path ty => some ty
  | _ => Option.none

/-- The `create_single_argument_type` from `ty.rs`: only `Vec<u8>` resolves. -/
def createSingleArgumentType (ty : TypePath) (segment : PathSegment)
    (argument : PathSegment) : Except Diagnostic Ty :=
  if segment.ident.name = "Vec" && argument.ident.name = "u8" then
    .ok .byteArray
  else
    createUnsupported ty.span

/-- The `create_arguments_type` from `ty.rs`. -/
def createArgumentsType (ty : TypePath) (segment : PathSegment)
    (arguments : PathArguments) : Except Diagnostic Ty :=
  ((((((some arguments).bind mapAngleBracketed).bind
      mapSingleArgument).bind mapTypeArgument).bind mapPathType).filter
        (fun ty => hasNoQself ty)).bind mapSingleSegment
    |>.map (fun argument => createSingleArgumentType ty segment argument)
    |>.getD (createUnsupported ty.span)

/-- The `create_type` from `ty.rs`. -/
def createType (ty : TypePath) (segment : PathSegment) : Except Diagnostic Ty :=
  if hasNoArgument segment then
    createNoArgumentType ty segment
  else
    createArgumentsType ty segment segment.arguments

/-- The `create_from_path` from `ty.rs`. -/
def createFromPath (ty : TypePath) : Except Diagnostic Ty :=
  (((some ty).filter (fun ty => hasNoQself ty)).bind mapSingleSegment)
    |>.map (fun segment => createType ty segment)
    |>.getD (createUnsupported ty.span)

/-- The `from_type` from `ty.rs`: the full type resolver. -/
def fromType (ty : SynType) : Except Diagnostic Ty :=
  match ty with
  | .path ty => createFromPath ty
  | .ptr span => createUnsupported span
  | .other span => createUnsupported span

/-- The `is_segment_qobject` from `ty.rs`. -/
def isSegmentQObject (segment : PathSegment) : Bool :=
  let ident := segment.ident.name
  if ident = "QObject" then true else false

/-- The `is_path_qobject` from `ty.rs`. -/
def isPathQObject (ty : TypePath) : Bool :=
  ((((some ty).filter (fun ty => hasNoQself ty)).bind mapSingleSegment).filter
      (fun argument => hasNoArgument argument))
    |>.map isSegmentQObject
    |>.getD false

/-- The `is_qobject` from `ty.rs`: the standalone owner-marker predicate. -/
def isQObject (ty : SynType) : Bool :=
  match ty with
  | .path ty => isPathQObject ty
  | _ => false

/-- A bare single-segment path type with no qself, no leading colon and no
generic arguments, such as the surface spellings `i32` or `QObject`. -/
def simplePathType (name : String) (tySpan identSpan : Span) : SynType :=
  .path (TypePath.mk Option.none
    (SynPath.mk false [PathSegment.mk ⟨name, identSpan⟩ PathArguments.none]) tySpan)

/-- A parsed field `name: ty` from `qobjects.rs` (`PField`). -/
structure PField where
  name : Ident
  ty : SynType

/-- A parsed object declaration from `qobjects.rs` (`PObject`), with the
fields of all its `fields { ... }` blocks concatenated in order. -/
structure PObject where
  name : Ident
  fields : List PField

/-- The parsed unit from `qobjects.rs` (`PObjects`). -/
structure PObjects where
  objects : List PObject

/-- A field of the final metadata model, from `lib.rs` (`Field`): the name
as a string and the raw syntactic type. -/
structure Field where
  name : String
  ty : SynType

/-- An object of the final metadata model, from `lib.rs` (`Object`). -/
structure Object where
  name : String
  fields : List Field
  qobjectFieldName : Option String

/-- The `CheckResult` from `check.rs`: success, or a list of diagnostics. -/
abbrev CheckResult := Except (List Diagnostic) Unit

/-- State of `UniqueFieldCheck`: the `already_defined` map from field names
to the span of their first declaration (a `HashMap` in the source; its
`get`/`insert` behaviour is rendered with an association list). -/
abbrev UniqueFieldState := List (String × Span)

/-- The `HashMap::get` on the `already_defined` map. -/
def UniqueFieldState.get (st : UniqueFieldState) (name : String) : Option Span :=
  (st.find? (fun entry => entry.1 = name)).map (fun entry => entry.2)

/-- The message of a duplicate-field error, from `UniqueFieldCheck::check`. -/
def dupFieldMsg (name : String) : String :=
  "Field `" ++ (name ++ "` is already declared")

/-- The message of the note attached to a duplicate-field error. -/
def dupFieldNoteMsg (name : String) : String :=
  "`" ++ (name ++ "` first declared here.")

/-- The duplicate-field diagnostic built by `UniqueFieldCheck::check`:
an error at the duplicate occurrence with a note at the first one. -/
def dupFieldDiag (name : String) (inputSpan firstSpan : Span) : Diagnostic :=
  let note := ((Diagnostic.new .note).withMessage (dupFieldNoteMsg name)).withSpan firstSpan
  (((Diagnostic.new .error).withMessage (dupFieldMsg name)).withSpan inputSpan).addChild note

/-- The `UniqueFieldCheck::check` from `qobjects/check.rs`: reports a repeated
field name, remembering only the first occurrence. -/
def uniqueFieldCheck (st : UniqueFieldState) (input : PField) :
    UniqueFieldState × CheckResult :=
  let name := input.name.name
  match st.get name with
  | some span => (st, .error [dupFieldDiag name input.name.span span])
  | Option.none => ((name, input.name.span) :: st, .ok ())

/-- The duplicated-owner-field diagnostic built by
`UniqueQObjectFieldCheck::check`. -/
def dupQObjectDiag (inputSpan firstSpan : Span) : Diagnostic :=
  let note := ((Diagnostic.new .note).withMessage "first declared here.").withSpan firstSpan
  (((Diagnostic.new .error).withMessage
      "Duplicated `QObject` type field").withSpan inputSpan).addChild note

/-- The `UniqueQObjectFieldCheck::check` from `qobjects/check.rs`: flags every
owner-marker-typed field after the first one. -/
def uniqueQObjectFieldCheck (st : Option Span) (input : PField) :
    Option Span × CheckResult :=
  if isQObject input.ty then
    match st with
    | some span => (st, .error [dupQObjectDiag input.name.span span])
    | Option.none => (some input.ty.span, .ok ())
  else
    (st, .ok ())

/-- The `Checker::fold_result` from `check.rs`: merges two check results,
concatenating diagnostic lists. -/
def foldResult (first second : CheckResult) : CheckResult :=
  match first, second with
  | .ok _, .ok _ => .ok ()
  | .ok _, .error diagnostics => .error diagnostics
  | .error diagnostics, .ok _ => .error diagnostics
  | .error firstDiags, .error secondDiags => .error (firstDiags ++ secondDiags)

/-- The combined state of the two checks registered by
`Parser::create_fields` (in registration order). -/
structure CheckerState where
  uniqueField : UniqueFieldState
  qobjectField : Option Span

/-- The `Checker::check` for the checker built in `Parser::create_fields`:
runs `UniqueFieldCheck` then `UniqueQObjectFieldCheck` on the field and
folds the two results (both checks always run). -/
def checkerCheck (st : CheckerState) (input : PField) : CheckerState × CheckResult :=
  let (uf, firstResult) := uniqueFieldCheck st.uniqueField input
  let (uq, secondResult) := uniqueQObjectFieldCheck st.qobjectField input
  (⟨uf, uq⟩, foldResult (foldResult (.ok ()) firstResult) secondResult)

/-- The loop of `Parser::create_fields`: checks each field in order,
accumulating diagnostics, the success flag and the passing fields. -/
def createFieldsLoop (st : CheckerState) (success : Bool) (result : List Field)
    (diags : List Diagnostic) : List PField → List Diagnostic × Bool × List Field
  | [] => (diags, success, result)
  | field :: rest =>
    let (st2, checkResult) := checkerCheck st field
    match checkResult with
    | .error newDiagnostics =>
      createFieldsLoop st2 false result (diags ++ newDiagnostics) rest
    | .ok _ =>
      createFieldsLoop st2 success (result ++ [⟨field.name.name, field.ty⟩]) diags rest

/-- The `Parser::create_fields` from `qobjects.rs`: the diagnostics it appends
to the parser, and `Some` of the field list exactly when no check failed. -/
def createFields (fields : List PField) : List Diagnostic × Option (List Field) :=
  let (diags, success, result) := createFieldsLoop ⟨[], Option.none⟩ true [] [] fields
  (diags, if success then some result else Option.none)

/-- The `Parser::map_qobject_field_name` from `qobjects.rs`. -/
def mapQObjectFieldName (field : PField) : Option String :=
  if isQObject field.ty then some field.name.name else Option.none

/-- The `Parser::create_qobject_field_name` from `qobjects.rs`: the name of the
first owner-marker-typed field, if any. -/
def createQObjectFieldName (fields : List PField) : Option String :=
  (fields.filterMap mapQObjectFieldName).head?

/-- The loop of `Parser::with_objects`: builds each declaration in order,
appending its diagnostics, and pushing an `Object` only when
`create_fields` succeeded. -/
def withObjectsLoop (objects : List Object) (diags : List Diagnostic) :
    List PObject → List Object × List Diagnostic
  | [] => (objects, diags)
  | pobject :: rest =>
    let (newDiags, fieldsOpt) := createFields pobject.fields
    let diags := diags ++ newDiags
    match fieldsOpt with
    | some fields =>
      withObjectsLoop
        (objects ++ [⟨pobject.name.name, fields, createQObjectFieldName pobject.fields⟩])
        diags rest
    | Option.none => withObjectsLoop objects diags rest

/-- The `Parser::with_objects` applied to a freshly parsed unit: the objects
and diagnostics accumulated over all declarations. -/
def buildUnit (pobjects : List PObject) : List Object × List Diagnostic :=
  withObjectsLoop [] [] pobjects

/-- A `syn::Error`: the message and the span of the offending token. -/
structure SynError where
  message : String
  span : Span

/-- The `Parser` state of `qobjects.rs`. -/
structure Parser where
  pobjects : List PObject
  objects : List Object
  diagnostics : List Diagnostic

/-- The `Parser::from_result` from `qobjects.rs`: on a successful parse, build
all objects; on a parse error, one error diagnostic at the span of the error. -/
def Parser.fromResult (result : Except SynError PObjects) : Parser :=
  match result with
  | .ok pobjects =>
    let (objects, diags) := buildUnit pobjects.objects
    { pobjects := pobjects.objects, objects := objects, diagnostics := diags }
  | .error err =>
    let diagnostic := ((Diagnostic.new .error).withMessage err.message).withSpan err.span
    { pobjects := [], objects := [], diagnostics := [diagnostic] }

/-- The public `from_stream` of `qobjects.rs`, applied to the result of the
external `syn` tokenizer (`parse2`): objects when there is no diagnostic,
the diagnostics otherwise. -/
def fromStreamResult (input : Except SynError PObjects) :
    Except (List Diagnostic) (List Object) :=
  let parser := Parser.fromResult input
  if parser.diagnostics.isEmpty then .ok parser.objects else .error parser.diagnostics

/-- A top-level item of a parsed source file, as far as `ModuleVisitor`
distinguishes them: a module declaration (with or without an inline body),
an invocation of a macro whose argument token stream parses to the given
result, or anything else. -/
inductive Item : Type where
  | itemMod : String → Option (List Item) → Item
  | itemInvocation : List String → Except SynError PObjects → Item
  | itemOther : Item

/-- A parsed source file: its top-level items in declaration order. -/
structure RustFile where
  items : List Item

/-- The `ModuleVisitor` state from `qt-auto-binding-build/src/parse/mod.rs`. -/
structure VisitorState where
  subModules : List String
  objects : List Object
  hasError : Bool

/-- One step of the visitor. `visit_item_mod` is overridden without
delegating to the default traversal, so a module with an inline body is
neither recorded as a sub-module nor has its content visited; `visit_macro`
only reacts to invocations whose path is a single segment spelled
`qobjects`. -/
def visitItem (st : VisitorState) : Item → VisitorState
  | .itemMod name content =>
    match content with
    | Option.none => { st with subModules := st.subModules ++ [name] }
    | some _ => st
  | .itemInvocation pathSegments tts =>
    match single pathSegments with
    | some invocationName =>
      if invocationName = "qobjects" then
        match fromStreamResult tts with
        | .ok objects => { st with objects := st.objects ++ objects }
        | .error _ => { st with hasError := true }
      else st
    | Option.none => st
  | .itemOther => st

/-- The `visit_file` with a fresh `ModuleVisitor`: folds `visitItem` over the
items of the file in order. -/
def visitFile (file : RustFile) : VisitorState :=
  file.items.foldl visitItem ⟨[], [], false⟩

/-- The `Error` enum of `qt-auto-binding-build/src/parse/errors.rs`. -/
inductive BuildError : Type where
  | io : String → BuildError
  | source : BuildError
  | duplicatedObject : String → BuildError
deriving DecidableEq

/-- The outcome of reading and parsing one module file: the read failed
under both file-layout conventions, the content failed to parse as Rust
(`parse_file` is external and modelled by its outcome), or a parsed file. -/
inductive ReadResult : Type where
  | notFound : ReadResult
  | invalidSource : ReadResult
  | parsed : RustFile → ReadResult

/-- A module reader: the `ReadModuleFs` capability composed with the
external `syn::parse_file`, keyed by (directory path, module name). -/
abbrev Reader := List String → String → ReadResult

/-- The `ProjectParser::create_new_path`: the path under which the children of
the current module are searched. -/
def createNewPath (path : List String) (module : String) : List String :=
  if module = "lib" then path else path ++ [module]

/-- The `ProjectParser::parse_module`: appends the objects found by the visitor, or fails
with `Source` when any DSL invocation in the module produced diagnostics. -/
def parseModule (objects : List Object) (visitor : VisitorState) :
    Except BuildError (List Object) :=
  if !visitor.hasError then .ok (objects ++ visitor.objects) else .error .source

/-- The `ProjectParser::parse_recursively`, with explicit accumulator state:
the accumulated objects and the visit log (one entry per `Parsing {}/{}`
line, in visit order). The Rust recursion is bounded by the file system;
`fuel` makes it structural, and every theorem supplies enough fuel. -/
def parseRecursively (reader : Reader) :
    Nat → List String → String → List Object → List (List String × String) →
    Except BuildError (List Object × List (List String × String))
  | 0, _, _, _, _ => .error .source
  | Nat.succ fuel, path, module, objects, log =>
    let log := log ++ [(path, module)]
    match reader path module with
    | .notFound => .error (.io ("Failed to read module " ++ module))
    | .invalidSource => .error .source
    | .parsed file =>
      let visitor := visitFile file
      match parseModule objects visitor with
      | .error e => .error e
      | .ok objects =>
        let newPath := createNewPath path module
        visitor.subModules.foldl
          (fun acc subModule =>
            match acc with
            | .error e => .error e
            | .ok (objects, log) => parseRecursively reader fuel newPath subModule objects log)
          (.ok (objects, log))

/-- The loop of `ProjectParser::check`: scans the accumulated objects in
order and returns the first name already seen, if any (the `HashSet` of
seen names is rendered as a list). -/
def firstDuplicated : List Object → List String → Option String
  | [], _ => Option.none
  | object :: rest, seen =>
    if seen.contains object.name then some object.name
    else firstDuplicated rest (object.name :: seen)

/-- The `ProjectParser::check`: fails with `DuplicatedObject` on the first
repeated object name, in accumulation order. -/
def checkObjects (objects : List Object) : Except BuildError Unit :=
  match firstDuplicated objects [] with
  | some name => .error (.duplicatedObject name)
  | Option.none => .ok ()

/-- The `ProjectParser::parse`: crawl from `src/lib`, then run the global
uniqueness check, then return the accumulated objects. -/
def parserParse (reader : Reader) (fuel : Nat) : Except BuildError (List Object) :=
  match parseRecursively reader fuel ["src"] "lib" [] [] with
  | .error e => .error e
  | .ok (objects, _) =>
    match checkObjects objects with
    | .error e => .error e
    | .ok _ => .ok objects

/-- The embedding of the surface spelling `Vec<u8>`: a single-segment path
`Vec` with one angle-bracketed type argument `u8`. -/
def vecU8Type (tySpan vecIdentSpan argTySpan argIdentSpan : Span) : SynType :=
  .path (TypePath.mk Option.none
    (SynPath.mk false
      [PathSegment.mk ⟨"Vec", vecIdentSpan⟩
        (PathArguments.angleBracketed
          [.type (simplePathType "u8" argTySpan argIdentSpan)])]) tySpan)

/-- The unsupported-type diagnostic of `create_unsupported`, in explicit
form: one error spanning the given span, with one help child listing the
supported spellings. -/
def unsupportedDiag (span : Span) : Diagnostic :=
  Diagnostic.mk .error "This type is not supported by qt_binding" [span]
    [Diagnostic.mk .help supportedTypesMsg [] []]

theorem createUnsupported_eq (span : Span) :
    createUnsupported span = .error (unsupportedDiag span) := rfl

theorem dupFieldDiag_message (n : String) (a b : Span) :
    (dupFieldDiag n a b).message = dupFieldMsg n := rfl

theorem dupQObjectDiag_message (a b : Span) :
    (dupQObjectDiag a b).message = "Duplicated `QObject` type field" := rfl

theorem dupFieldMsg_inj {a b : String} (h : dupFieldMsg a = dupFieldMsg b) :
    a = b := by
  have h2 := congrArg String.data h
  simp only [dupFieldMsg, String.data_append] at h2
  exact String.ext (List.append_cancel_right (List.append_cancel_left h2))

theorem dupFieldMsg_ne_dupQObjectMsg (n : String) :
    dupFieldMsg n ≠ "Duplicated `QObject` type field" := by
  intro h
  have h2 : (dupFieldMsg n).data =
      ("Duplicated `QObject` type field" : String).data := congrArg String.data h
  have e1 : (dupFieldMsg n).data =
      'F' :: (("ield `" : String).data ++
        (n.data ++ ("` is already declared" : String).data)) := by
    simp only [dupFieldMsg, String.data_append]
    rfl
  have e2 : ("Duplicated `QObject` type field" : String).data =
      'D' :: ("uplicated `QObject` type field" : String).data := rfl
  rw [e1, e2] at h2
  injection h2 with hc _
  exact absurd hc (by decide)

theorem uniqueFieldStateGetCons (m : String) (s : Span) (st : UniqueFieldState)
    (n : String) :
    UniqueFieldState.get ((m, s) :: st) n = if m = n then some s else st.get n := by
  by_cases h : m = n <;> simp [UniqueFieldState.get, List.find?, h]

/-- C1: the claim states that for a type expression that is an unqualified
single-segment path spelled `QObject` with zero generic arguments, both
`is_qobject` returns true and `from_type` succeeds with the owner-handle
semantic type.  On the code, `is_qobject` returns true but `from_type`
fails: `create_no_argument_type` has no `QObject` arm (the `Type` enum has
no owner-handle variant at all), so the claimed agreement is false. -/
theorem c1_counterexample_qobject_resolver :
    isQObject (simplePathType "QObject" 0 1) = true ∧
    fromType (simplePathType "QObject" 0 1) = .error (unsupportedDiag 0) :=
  ⟨rfl, rfl⟩

/-- C1 (amended): for every type expression that is an unqualified path
with exactly one segment spelled `QObject` and zero generic arguments,
`is_qobject` returns true while the full resolver `from_type` fails with
the unsupported-type error diagnostic spanning the type expression: the
standalone predicate and the full resolver do NOT agree — `from_type` has
no owner-handle result. -/
theorem c1_owner_marker_vs_resolver (lc : Bool) (args : PathArguments)
    (tySpan identSpan : Span) (ty : SynType)
    (hty : ty = .path (TypePath.mk Option.none
      (SynPath.mk lc [PathSegment.mk ⟨"QObject", identSpan⟩ args]) tySpan))
    (hargs : args.isEmpty = true) :
    isQObject ty = true ∧ fromType ty = .error (unsupportedDiag tySpan) := by
  subst hty
  constructor
  · simp [isQObject, isPathQObject, hasNoQself, hasNoArgument, mapSingleSegment,
      single, isSegmentQObject, TypePath.qself, TypePath.path, SynPath.segments,
      PathSegment.ident, PathSegment.arguments, Option.filter, hargs]
  · simp [fromType, createFromPath, createType, createNoArgumentType,
      createUnsupported, unsupportedDiag, hasNoQself, hasNoArgument,
      mapSingleSegment, single, TypePath.qself, TypePath.path, TypePath.span,
      SynPath.segments, PathSegment.ident, PathSegment.arguments, Option.filter,
      hargs, Diagnostic.new, Diagnostic.withMessage, Diagnostic.withSpan,
      Diagnostic.addChild, Diagnostic.level, Diagnostic.message,
      Diagnostic.spans, Diagnostic.children]

/-- C1 witness for the amended theorem. -/
theorem c1_owner_marker_vs_resolver_witness :
    isQObject (simplePathType "QObject" 7 8) = true ∧
    fromType (simplePathType "QObject" 7 8) = .error (unsupportedDiag 7) :=
  c1_owner_marker_vs_resolver false PathArguments.none 7 8 _ rfl rfl

/-- C2: the claim states that building an object resolves the type of
every field, so a field of unsupported type (e.g. `bool`) contributes an
unsupported-type error diagnostic and is dropped.  On the code,
`Parser::create_fields` runs only the two uniqueness checks and never
calls `from_type`: a `bool` field is kept with its raw syntactic type and
contributes no diagnostic — even though the resolver rejects `bool`. -/
theorem c2_counterexample_bool_field :
    createFields [⟨⟨"a", 1⟩, simplePathType "bool" 2 3⟩] =
      ([], some [⟨"a", simplePathType "bool" 2 3⟩]) ∧
    fromType (simplePathType "bool" 2 3) = .error (unsupportedDiag 2) :=
  ⟨rfl, rfl⟩

/-- C2 (amended): when building an object from its parsed field list, the
builder runs the two uniqueness checks on every field but performs no type
resolution: a lone field of any non-owner-marker type — supported or not —
passes both checks, contributes no diagnostic, and is kept in the final
field list with its raw syntactic type. -/
theorem c2_builder_skips_type_resolution (field : PField)
    (h : isQObject field.ty = false) :
    createFields [field] = ([], some [⟨field.name.name, field.ty⟩]) := by
  simp [createFields, createFieldsLoop, checkerCheck, uniqueFieldCheck,
    uniqueQObjectFieldCheck, UniqueFieldState.get, foldResult, h]

/-- C2 witness: a field whose type `bool` is rejected by the resolver is
nevertheless kept, with no diagnostic. -/
theorem c2_builder_skips_type_resolution_witness :
    createFields [⟨⟨"b", 4⟩, simplePathType "bool" 5 6⟩] =
      ([], some [⟨"b", simplePathType "bool" 5 6⟩]) :=
  c2_builder_skips_type_resolution ⟨⟨"b", 4⟩, simplePathType "bool" 5 6⟩ rfl

/-- C6: for every token stream the external grammar rejects (`syn` reports
a single error value carrying the span of the offending token),
`Parser::from_result` yields exactly one error diagnostic, at that span,
and zero objects, and the public `from_stream` returns that single
diagnostic as the only output of the unit: no multi-error recovery, no
partially built object. -/
theorem c6_parse_error_is_fatal (err : SynError) :
    (Parser.fromResult (.error err)).diagnostics =
      [Diagnostic.mk .error err.message [err.span] []] ∧
    (Parser.fromResult (.error err)).objects = [] ∧
    fromStreamResult (.error err) =
      .error [Diagnostic.mk .error err.message [err.span] []] :=
  ⟨rfl, rfl, rfl⟩

/-- C9: every supported spelling resolves to its documented semantic type,
and every other single-segment zero-argument identifier fails with exactly
one error diagnostic spanning the type expression and carrying a help
child that lists the supported spellings. -/
theorem c9_round_trip_type_resolution (tySpan identSpan a b c d : Span)
    (name : String)
    (h : name ∉ ["i32", "u32", "i64", "u64", "f32", "f64", "String"]) :
    fromType (simplePathType "i32" tySpan identSpan) = .ok .i32 ∧
    fromType (simplePathType "u32" tySpan identSpan) = .ok .u32 ∧
    fromType (simplePathType "i64" tySpan identSpan) = .ok .i64 ∧
    fromType (simplePathType "u64" tySpan identSpan) = .ok .u64 ∧
    fromType (simplePathType "f32" tySpan identSpan) = .ok .f32 ∧
    fromType (simplePathType "f64" tySpan identSpan) = .ok .f64 ∧
    fromType (simplePathType "String" tySpan identSpan) = .ok .string ∧
    fromType (vecU8Type a b c d) = .ok .byteArray ∧
    fromType (simplePathType name tySpan identSpan) =
      .error (unsupportedDiag tySpan) := by
  refine ⟨rfl, rfl, rfl, rfl, rfl, rfl, rfl, rfl, ?_⟩
  simp only [List.mem_cons, List.mem_singleton, not_or] at h
  obtain ⟨h1, h2, h3, h4, h5, h6, h7⟩ := h
  simp [simplePathType, fromType, createFromPath, createType,
    createNoArgumentType, createUnsupported, unsupportedDiag, hasNoQself,
    hasNoArgument, mapSingleSegment, single, TypePath.qself, TypePath.path,
    TypePath.span, SynPath.segments, PathSegment.ident, PathSegment.arguments,
    PathArguments.isEmpty, Option.filter, h1, h2, h3, h4, h5, h6, h7,
    Diagnostic.new, Diagnostic.withMessage, Diagnostic.withSpan,
    Diagnostic.addChild, Diagnostic.level, Diagnostic.message,
    Diagnostic.spans, Diagnostic.children]

/-- C9 witness: `bool` is not a supported spelling and is rejected. -/
theorem c9_round_trip_type_resolution_witness :
    fromType (simplePathType "i32" 0 1) = .ok .i32 ∧
    fromType (simplePathType "u32" 0 1) = .ok .u32 ∧
    fromType (simplePathType "i64" 0 1) = .ok .i64 ∧
    fromType (simplePathType "u64" 0 1) = .ok .u64 ∧
    fromType (simplePathType "f32" 0 1) = .ok .f32 ∧
    fromType (simplePathType "f64" 0 1) = .ok .f64 ∧
    fromType (simplePathType "String" 0 1) = .ok .string ∧
    fromType (vecU8Type 2 3 4 5) = .ok .byteArray ∧
    fromType (simplePathType "bool" 0 1) = .error (unsupportedDiag 0) :=
  c9_round_trip_type_resolution 0 1 2 3 4 5 "bool" (by decide)

/-- C10: the crawl visitor treats an invocation as a DSL site only
when its path is a single segment spelled `qobjects` (a qualified
invocation is silently skipped), and a module item with an inline body is
neither recorded for file descent nor has its contents visited, so a
`qobjects!` invocation nested in an inline module body is silently
ignored, yielding neither objects nor an error. -/
theorem c10_visitor_discovery_scope (st : VisitorState) (name : String)
    (content : List Item) (seg1 seg2 : String) (rest : List String)
    (tts tts2 tts3 : Except SynError PObjects) (s : String)
    (hs : s ≠ "qobjects") :
    visitItem st (.itemMod name (some content)) = st ∧
    visitItem st (.itemInvocation (seg1 :: seg2 :: rest) tts2) = st ∧
    visitItem st (.itemInvocation [s] tts3) = st ∧
    visitFile ⟨[.itemMod name (some [Item.itemInvocation ["qobjects"] tts])]⟩ =
      ⟨[], [], false⟩ ∧
    visitFile ⟨[Item.itemInvocation ["qobjects"] (.ok ⟨[⟨⟨"MyObject", 0⟩, []⟩]⟩)]⟩ =
      ⟨[], [⟨"MyObject", [], Option.none⟩], false⟩ := by
  refine ⟨rfl, rfl, ?_, rfl, rfl⟩
  simp [visitItem, single, hs]

/-- C10 witness: a qualified invocation spelling is skipped. -/
theorem c10_visitor_discovery_scope_witness :
    visitItem ⟨[], [], false⟩ (.itemMod "m" (some [])) = ⟨[], [], false⟩ ∧
    visitItem ⟨[], [], false⟩ (.itemInvocation ["a", "qobjects"] (.ok ⟨[]⟩)) =
      ⟨[], [], false⟩ ∧
    visitItem ⟨[], [], false⟩ (.itemInvocation ["foo"] (.ok ⟨[]⟩)) =
      ⟨[], [], false⟩ ∧
    visitFile ⟨[.itemMod "m" (some [Item.itemInvocation ["qobjects"] (.ok ⟨[]⟩)])]⟩ =
      ⟨[], [], false⟩ ∧
    visitFile ⟨[Item.itemInvocation ["qobjects"] (.ok ⟨[⟨⟨"MyObject", 0⟩, []⟩]⟩)]⟩ =
      ⟨[], [⟨"MyObject", [], Option.none⟩], false⟩ :=
  c10_visitor_discovery_scope ⟨[], [], false⟩ "m" [] "a" "qobjects" []
    (.ok ⟨[]⟩) (.ok ⟨[]⟩) (.ok ⟨[]⟩) "foo" (by decide)

/-- C4: an object with exactly two fields of the owner-marker type (with
distinct names, so the duplicate-name check stays silent) yields exactly
one diagnostic: the second occurrence is flagged at its name span with a
note child at the type span of the first occurrence; the first occurrence is
never flagged, and no object field list is produced. -/
theorem c4_owner_marker_exclusivity (f1 f2 : PField)
    (h1 : isQObject f1.ty = true) (h2 : isQObject f2.ty = true)
    (h3 : ¬f1.name.name = f2.name.name) :
    createFields [f1, f2] =
      ([dupQObjectDiag f2.name.span f1.ty.span], Option.none) := by
  simp [createFields, createFieldsLoop, checkerCheck, uniqueFieldCheck,
    uniqueQObjectFieldCheck, UniqueFieldState.get, List.find?, foldResult,
    h1, h2, h3]

/-- C4 witness: two distinct owner-marker fields give one diagnostic. -/
theorem c4_owner_marker_exclusivity_witness :
    createFields [⟨⟨"field1", 1⟩, simplePathType "QObject" 2 3⟩,
                  ⟨⟨"field2", 4⟩, simplePathType "QObject" 5 6⟩] =
      ([dupQObjectDiag 4 2], Option.none) :=
  c4_owner_marker_exclusivity
    ⟨⟨"field1", 1⟩, simplePathType "QObject" 2 3⟩
    ⟨⟨"field2", 4⟩, simplePathType "QObject" 5 6⟩ rfl rfl (by decide)

/-- The parse result of a `qobjects!` token stream declaring one empty
object with the given name. -/
def singleObjectBody (n : String) : Except SynError PObjects :=
  .ok ⟨[⟨⟨n, 0⟩, []⟩]⟩

/-- The module tree of the crawl-order example: the root module declares
children `a` then `b`; `a` declares `a1` then `a2`; `b` holds only an
inline module.  `lib`, `a`, `a1` and `b` each hold one DSL invocation. -/
def exampleReader : Reader := fun path module =>
  if path = ["src"] ∧ module = "lib" then
    .parsed ⟨[.itemInvocation ["qobjects"] (singleObjectBody "Root"),
              .itemMod "a" Option.none, .itemMod "b" Option.none]⟩
  else if path = ["src"] ∧ module = "a" then
    .parsed ⟨[.itemMod "a1" Option.none, .itemMod "a2" Option.none,
              .itemInvocation ["qobjects"] (singleObjectBody "A")]⟩
  else if path = ["src", "a"] ∧ module = "a1" then
    .parsed ⟨[.itemInvocation ["qobjects"] (singleObjectBody "A1")]⟩
  else if path = ["src", "a"] ∧ module = "a2" then
    .parsed ⟨[]⟩
  else if path = ["src"] ∧ module = "b" then
    .parsed ⟨[.itemMod "internal" (some []),
              .itemInvocation ["qobjects"] (singleObjectBody "B")]⟩
  else .notFound

/-- C8: the child search path of the crawler equals the current path unchanged
when the current module is the entry module `lib`, and
`current_path / current_module_name` otherwise; the crawl is depth-first
pre-order, processing the DSL invocations of a module before descending
into its bodiless children in declaration order: on the example tree
(root declaring `a` then `b`, `a` declaring `a1` then `a2`) the visit
order is root, a, a1, a2, b, and the objects accumulate in that order. -/
theorem c8_depth_first_crawl_order (path : List String) (m : String)
    (hm : m ≠ "lib") :
    createNewPath path "lib" = path ∧
    createNewPath path m = path ++ [m] ∧
    parseRecursively exampleReader 5 ["src"] "lib" [] [] =
      .ok ([⟨"Root", [], Option.none⟩, ⟨"A", [], Option.none⟩,
            ⟨"A1", [], Option.none⟩, ⟨"B", [], Option.none⟩],
           [(["src"], "lib"), (["src"], "a"), (["src", "a"], "a1"),
            (["src", "a"], "a2"), (["src"], "b")]) := by
  refine ⟨rfl, ?_, rfl⟩
  rw [createNewPath, if_neg hm]

/-- C8 witness: the children of a non-entry module are searched under
`current_path / current_module_name`. -/
theorem c8_depth_first_crawl_order_witness :
    createNewPath ["src"] "lib" = ["src"] ∧
    createNewPath ["src"] "a" = ["src"] ++ ["a"] ∧
    parseRecursively exampleReader 5 ["src"] "lib" [] [] =
      .ok ([⟨"Root", [], Option.none⟩, ⟨"A", [], Option.none⟩,
            ⟨"A1", [], Option.none⟩, ⟨"B", [], Option.none⟩],
           [(["src"], "lib"), (["src"], "a"), (["src", "a"], "a1"),
            (["src", "a"], "a2"), (["src"], "b")]) :=
  c8_depth_first_crawl_order ["src"] "a" (by decide)

theorem createFieldsLoop_diags_acc (fields : List PField) (st : CheckerState)
    (success : Bool) (result : List Field) (diags : List Diagnostic) :
    createFieldsLoop st success result diags fields =
      (diags ++ (createFieldsLoop st success result [] fields).1,
       (createFieldsLoop st success result [] fields).2) := by
  induction fields generalizing st success result diags with
  | nil => simp [createFieldsLoop]
  | cons f rest ih =>
    simp only [createFieldsLoop]
    rcases hcc : checkerCheck st f with ⟨st2, cr⟩
    cases cr with
    | error nd =>
      simp only [hcc]
      rw [ih st2 false result (diags ++ nd), ih st2 false result ([] ++ nd)]
      simp [List.append_assoc]
    | ok u =>
      simp only [hcc]
      exact ih st2 success (result ++ [⟨f.name.name, f.ty⟩]) diags

theorem withObjectsLoop_append (xs ys : List PObject) (objects : List Object)
    (diags : List Diagnostic) :
    withObjectsLoop objects diags (xs ++ ys) =
      withObjectsLoop (withObjectsLoop objects diags xs).1
        (withObjectsLoop objects diags xs).2 ys := by
  induction xs generalizing objects diags with
  | nil => simp [withObjectsLoop]
  | cons p rest ih =>
    simp only [List.cons_append, withObjectsLoop]
    rcases hcf : createFields p.fields with ⟨nd, fo⟩
    cases fo <;> simp [hcf, ih]

theorem withObjectsLoop_acc (pobjects : List PObject) (objects : List Object)
    (diags : List Diagnostic) :
    withObjectsLoop objects diags pobjects =
      (objects ++ (buildUnit pobjects).1, diags ++ (buildUnit pobjects).2) := by
  induction pobjects generalizing objects diags with
  | nil => simp [withObjectsLoop, buildUnit]
  | cons p rest ih =>
    simp only [withObjectsLoop, buildUnit]
    rcases hcf : createFields p.fields with ⟨nd, fo⟩
    cases fo with
    | none =>
      have ih1 := ih objects (diags ++ nd)
      have ih2 := ih ([] : List Object) ([] ++ nd)
      simp only [hcf]
      rw [ih1, ih2]
      simp [List.append_assoc]
    | some fields =>
      have ih1 := ih
        (objects ++ [(⟨p.name.name, fields, createQObjectFieldName p.fields⟩ : Object)])
        (diags ++ nd)
      have ih2 := ih
        ([] ++ [(⟨p.name.name, fields, createQObjectFieldName p.fields⟩ : Object)])
        ([] ++ nd)
      simp only [hcf]
      rw [ih1, ih2]
      simp [List.append_assoc]

theorem uniqueFieldCheck_shape (st : UniqueFieldState) (f : PField) :
    (uniqueFieldCheck st f).2 = .ok () ∨
      ∃ d, (uniqueFieldCheck st f).2 = .error [d] := by
  rcases h : st.get f.name.name with _ | s <;>
    simp [uniqueFieldCheck, h]

theorem uniqueQObjectFieldCheck_shape (st : Option Span) (f : PField) :
    (uniqueQObjectFieldCheck st f).2 = .ok () ∨
      ∃ d, (uniqueQObjectFieldCheck st f).2 = .error [d] := by
  by_cases h : isQObject f.ty
  · rcases st with _ | s <;> simp [uniqueQObjectFieldCheck, h]
  · simp [uniqueQObjectFieldCheck, h]

theorem checkerCheck_error_ne_nil (st : CheckerState) (f : PField)
    (st2 : CheckerState) (ds : List Diagnostic)
    (h : checkerCheck st f = (st2, .error ds)) : ds ≠ [] := by
  have h1 := uniqueFieldCheck_shape st.uniqueField f
  have h2 := uniqueQObjectFieldCheck_shape st.qobjectField f
  rcases hu : uniqueFieldCheck st.uniqueField f with ⟨uf, r1⟩
  rcases hq : uniqueQObjectFieldCheck st.qobjectField f with ⟨uq, r2⟩
  rw [hu] at h1
  rw [hq] at h2
  simp only [checkerCheck, hu, hq] at h
  rcases h1 with h1 | ⟨d1, h1⟩ <;> rcases h2 with h2 | ⟨d2, h2⟩ <;>
    simp only at h1 h2 <;> subst h1 <;> subst h2 <;>
    simp [foldResult] at h <;> simp [← h.2]

theorem createFieldsLoop_false (fields : List PField) (st : CheckerState)
    (result : List Field) (diags : List Diagnostic) :
    (createFieldsLoop st false result diags fields).2.1 = false := by
  induction fields generalizing st result diags with
  | nil => simp [createFieldsLoop]
  | cons f rest ih =>
    simp only [createFieldsLoop]
    rcases hcc : checkerCheck st f with ⟨st2, cr⟩
    cases cr <;> simp [hcc, ih]

theorem createFieldsLoop_success_iff (fields : List PField) (st : CheckerState)
    (result : List Field) :
    ((createFieldsLoop st true result [] fields).2.1 = true) ↔
      (createFieldsLoop st true result [] fields).1 = [] := by
  induction fields generalizing st result with
  | nil => simp [createFieldsLoop]
  | cons f rest ih =>
    simp only [createFieldsLoop]
    rcases hcc : checkerCheck st f with ⟨st2, cr⟩
    cases cr with
    | error nd =>
      have hne : nd ≠ [] := checkerCheck_error_ne_nil st f st2 nd hcc
      simp only [hcc]
      rw [createFieldsLoop_diags_acc rest st2 false result ([] ++ nd)]
      simp [createFieldsLoop_false, hne]
    | ok u =>
      simp only [hcc]
      exact ih st2 (result ++ [⟨f.name.name, f.ty⟩])

/-- C5: object building is all-or-nothing per declaration and does not
short-circuit across declarations.  For a unit `pre ++ [obj] ++ post`:
the built objects are those of `pre`, then `obj` exactly when its field
list passed (never a partial object), then those of `post`; the
diagnostics of every declaration accumulate in order; and `obj` passes
exactly when it contributed no diagnostic (every field passed all
checks). -/
theorem c5_all_or_nothing_per_declaration (pre post : List PObject)
    (obj : PObject) :
    (buildUnit (pre ++ obj :: post)).1 =
      (buildUnit pre).1 ++
        (match (createFields obj.fields).2 with
         | some fields =>
           [⟨obj.name.name, fields, createQObjectFieldName obj.fields⟩]
         | Option.none => []) ++ (buildUnit post).1 ∧
    (buildUnit (pre ++ obj :: post)).2 =
      (buildUnit pre).2 ++ (createFields obj.fields).1 ++ (buildUnit post).2 ∧
    ((createFields obj.fields).2.isSome ↔ (createFields obj.fields).1 = []) := by
  have hfold : withObjectsLoop ([] : List Object) ([] : List Diagnostic) pre
      = buildUnit pre := rfl
  refine ⟨?_, ?_, ?_⟩
  · rw [buildUnit, withObjectsLoop_append pre (obj :: post) [] [], hfold]
    simp only [withObjectsLoop]
    rcases hcf : createFields obj.fields with ⟨nd, fo⟩
    cases fo with
    | none =>
      simp only [hcf]
      rw [withObjectsLoop_acc post]
      simp [List.append_assoc]
    | some fields =>
      simp only [hcf]
      rw [withObjectsLoop_acc post]
  · rw [buildUnit, withObjectsLoop_append pre (obj :: post) [] [], hfold]
    simp only [withObjectsLoop]
    rcases hcf : createFields obj.fields with ⟨nd, fo⟩
    cases fo with
    | none =>
      simp only [hcf]
      rw [withObjectsLoop_acc post]
    | some fields =>
      simp only [hcf]
      rw [withObjectsLoop_acc post]
  · have hiff := createFieldsLoop_success_iff obj.fields ⟨[], Option.none⟩ []
    rcases hl : createFieldsLoop ⟨[], Option.none⟩ true [] [] obj.fields
      with ⟨diags, success, result⟩
    rw [hl] at hiff
    simp only at hiff
    simp only [createFields, hl]
    cases success with
    | true =>
      have hd : diags = [] := hiff.mp rfl
      simp [hd]
    | false =>
      have hd : diags ≠ [] := fun h => Bool.false_ne_true (hiff.mpr h)
      simp [hd]

theorem createFieldsLoop_dup_filter (fields : List PField) (n : String)
    (uf : UniqueFieldState) (uq : Option Span) (success : Bool)
    (result : List Field) :
    ((createFieldsLoop ⟨uf, uq⟩ success result [] fields).1).filter
        (fun d => d.message = dupFieldMsg n) =
      (match uf.get n with
       | some s0 =>
         (fields.filter (fun f => f.name.name = n)).map
           (fun f => dupFieldDiag n f.name.span s0)
       | Option.none =>
         (match fields.filter (fun f => f.name.name = n) with
          | [] => []
          | first :: rest2 =>
            rest2.map (fun f => dupFieldDiag n f.name.span first.name.span))) := by
  induction fields generalizing uf uq success result with
  | nil =>
    rcases h : uf.get n with _ | s0 <;> simp [createFieldsLoop, h]
  | cons f rest ih =>
    simp only [createFieldsLoop, checkerCheck, uniqueFieldCheck,
      uniqueQObjectFieldCheck]
    rcases hget : uf.get f.name.name with _ | s0
    · -- first occurrence of the name of this field: no duplicate-field diagnostic
      have key : ∀ uq2 success2 result2,
          ((createFieldsLoop ⟨(f.name.name, f.name.span) :: uf, uq2⟩ success2
              result2 [] rest).1).filter (fun d => d.message = dupFieldMsg n) =
            (match uf.get n with
             | some s0 =>
               ((f :: rest).filter (fun g => g.name.name = n)).map
                 (fun g => dupFieldDiag n g.name.span s0)
             | Option.none =>
               (match (f :: rest).filter (fun g => g.name.name = n) with
                | [] => []
                | first :: rest2 =>
                  rest2.map (fun g => dupFieldDiag n g.name.span first.name.span))) := by
        intro uq2 success2 result2
        rw [ih ((f.name.name, f.name.span) :: uf) uq2 success2 result2]
        rw [uniqueFieldStateGetCons]
        by_cases hn : f.name.name = n
        · rw [if_pos hn, ← hn, hget]
          simp [List.filter_cons, hn]
        · rw [if_neg hn]
          rcases h2 : uf.get n with _ | s1 <;> simp [List.filter_cons, hn, h2]
      cases hb : isQObject f.ty with
      | false =>
        simp only [hget, hb, Bool.false_eq_true, if_false, foldResult]
        exact key uq success (result ++ [⟨f.name.name, f.ty⟩])
      | true =>
        rcases uq with _ | s
        · simp only [hget, hb, if_true, foldResult]
          exact key (some f.ty.span) success (result ++ [⟨f.name.name, f.ty⟩])
        · simp only [hget, hb, if_true, foldResult]
          rw [createFieldsLoop_diags_acc rest ⟨(f.name.name, f.name.span) :: uf, some s⟩
            false result ([] ++ [dupQObjectDiag f.name.span s])]
          simp only [List.nil_append, List.filter_append, List.filter_cons,
            dupQObjectDiag_message]
          rw [key (some s) false result]
          have hqd : ¬("Duplicated `QObject` type field" = dupFieldMsg n) :=
            Ne.symm (dupFieldMsg_ne_dupQObjectMsg n)
          simp [hqd, List.filter_cons]
    · -- repeated name: one duplicate-field diagnostic, first span retained
      have key : ∀ uq2 success2,
          ((createFieldsLoop ⟨uf, uq2⟩ false success2 [] rest).1).filter
              (fun d => d.message = dupFieldMsg n) =
            (match uf.get n with
             | some s1 =>
               (rest.filter (fun g => g.name.name = n)).map
                 (fun g => dupFieldDiag n g.name.span s1)
             | Option.none =>
               (match rest.filter (fun g => g.name.name = n) with
                | [] => []
                | first :: rest2 =>
                  rest2.map (fun g => dupFieldDiag n g.name.span first.name.span))) := by
        intro uq2 success2
        exact ih uf uq2 false success2
      by_cases hn : f.name.name = n
      · have hmsg : dupFieldMsg f.name.name = dupFieldMsg n := by rw [hn]
        have hget2 : uf.get n = some s0 := by rw [← hn]; exact hget
        cases hb : isQObject f.ty with
        | false =>
          simp only [hget, hb, Bool.false_eq_true, if_false, foldResult]
          rw [createFieldsLoop_diags_acc rest ⟨uf, uq⟩ false result
            ([] ++ [dupFieldDiag f.name.name f.name.span s0])]
          simp only [List.nil_append, List.filter_append, List.filter_cons,
            dupFieldDiag_message]
          rw [key uq result]
          simp [hmsg, hget2, List.filter_cons, hn, hget]
        | true =>
          rcases uq with _ | s
          · simp only [hget, hb, if_true, foldResult]
            rw [createFieldsLoop_diags_acc rest ⟨uf, some f.ty.span⟩ false result
              ([] ++ [dupFieldDiag f.name.name f.name.span s0])]
            simp only [List.nil_append, List.filter_append, List.filter_cons,
              dupFieldDiag_message]
            rw [key (some f.ty.span) result]
            simp [hmsg, hget2, List.filter_cons, hn, hget]
          · simp only [hget, hb, if_true, foldResult]
            rw [createFieldsLoop_diags_acc rest ⟨uf, some s⟩ false result
              ([] ++ ([dupFieldDiag f.name.name f.name.span s0] ++
                      [dupQObjectDiag f.name.span s]))]
            simp only [List.nil_append, List.filter_append, List.filter_cons,
              dupFieldDiag_message, dupQObjectDiag_message]
            rw [key (some s) result]
            have hqd : ¬("Duplicated `QObject` type field" = dupFieldMsg n) :=
              Ne.symm (dupFieldMsg_ne_dupQObjectMsg n)
            simp [hmsg, hget2, List.filter_cons, hn, hget, hqd]
      · have hmsg : ¬(dupFieldMsg f.name.name = dupFieldMsg n) :=
          fun h => hn (dupFieldMsg_inj h)
        cases hb : isQObject f.ty with
        | false =>
          simp only [hget, hb, Bool.false_eq_true, if_false, foldResult]
          rw [createFieldsLoop_diags_acc rest ⟨uf, uq⟩ false result
            ([] ++ [dupFieldDiag f.name.name f.name.span s0])]
          simp only [List.nil_append, List.filter_append, List.filter_cons,
            dupFieldDiag_message]
          rw [key uq result]
          rcases h2 : uf.get n with _ | s1 <;> simp [hmsg, List.filter_cons, hn, h2]
        | true =>
          rcases uq with _ | s
          · simp only [hget, hb, if_true, foldResult]
            rw [createFieldsLoop_diags_acc rest ⟨uf, some f.ty.span⟩ false result
              ([] ++ [dupFieldDiag f.name.name f.name.span s0])]
            simp only [List.nil_append, List.filter_append, List.filter_cons,
              dupFieldDiag_message]
            rw [key (some f.ty.span) result]
            rcases h2 : uf.get n with _ | s1 <;>
              simp [hmsg, List.filter_cons, hn, h2]
          · simp only [hget, hb, if_true, foldResult]
            rw [createFieldsLoop_diags_acc rest ⟨uf, some s⟩ false result
              ([] ++ ([dupFieldDiag f.name.name f.name.span s0] ++
                      [dupQObjectDiag f.name.span s]))]
            simp only [List.nil_append, List.filter_append, List.filter_cons,
              dupFieldDiag_message, dupQObjectDiag_message]
            rw [key (some s) result]
            have hqd : ¬("Duplicated `QObject` type field" = dupFieldMsg n) :=
              Ne.symm (dupFieldMsg_ne_dupQObjectMsg n)
            rcases h2 : uf.get n with _ | s1 <;>
              simp [hmsg, List.filter_cons, hn, h2, hqd]

/-- C3: for every object field list and every field name `n`, the
duplicate-field diagnostics produced while building the object are exactly
one per occurrence of `n` after the first — each an error at the name
span of that later occurrence, with a note child pointing at the span of
the first occurrence (never at a later one: the check does not re-register
a duplicate as a new first occurrence).  For a name occurring N ≥ 2 times
this is exactly N−1 diagnostics at the 2nd..Nth occurrences. -/
theorem c3_duplicate_field_counting (fields : List PField) (n : String) :
    ((createFields fields).1).filter (fun d => d.message = dupFieldMsg n) =
      (match fields.filter (fun f => f.name.name = n) with
       | [] => []
       | first :: rest2 =>
         rest2.map (fun f => dupFieldDiag n f.name.span first.name.span)) := by
  have h := createFieldsLoop_dup_filter fields n [] Option.none true []
  rw [createFields]
  rcases hl : createFieldsLoop ⟨[], Option.none⟩ true [] [] fields
    with ⟨diags, success, result⟩
  rw [hl] at h
  simpa [UniqueFieldState.get] using h


theorem firstDuplicated_eq_none_iff (objects : List Object) (seen : List String) :
    firstDuplicated objects seen = Option.none ↔
      ((objects.map Object.name).Nodup ∧
        ∀ x ∈ objects.map Object.name, x ∉ seen) := by
  induction objects generalizing seen with
  | nil => simp [firstDuplicated]
  | cons o rest ih =>
    simp only [firstDuplicated]
    by_cases hc : o.name ∈ seen
    · rw [if_pos (List.elem_iff.mpr hc)]
      constructor
      · intro h; exact absurd h (by simp)
      · rintro ⟨_, h2⟩
        exact absurd hc (h2 o.name (by simp))
    · rw [if_neg (fun hb => hc (List.elem_iff.mp hb))]
      rw [ih]
      simp only [List.map_cons, List.nodup_cons, List.forall_mem_cons]
      constructor
      · rintro ⟨h1, h2⟩
        refine ⟨⟨fun hmem => (h2 o.name hmem) (List.mem_cons_self o.name seen), h1⟩,
          hc, fun x hx hxs => (h2 x hx) (List.mem_cons_of_mem o.name hxs)⟩
      · rintro ⟨⟨h0, h1⟩, _, h2⟩
        refine ⟨h1, fun x hx hmem => ?_⟩
        rcases List.mem_cons.mp hmem with rfl | hxs
        · exact h0 hx
        · exact (h2 x hx) hxs

theorem firstDuplicated_eq_some_iff (objects : List Object) (seen : List String)
    (n : String) :
    firstDuplicated objects seen = some n ↔
      ∃ pre post, objects.map Object.name = pre ++ n :: post ∧ pre.Nodup ∧
        (∀ x ∈ pre, x ∉ seen) ∧ (n ∈ pre ∨ n ∈ seen) := by
  induction objects generalizing seen with
  | nil =>
    simp only [firstDuplicated, List.map_nil]
    constructor
    · intro h; exact absurd h (by simp)
    · rintro ⟨pre, post, heq, -, -, -⟩
      simp at heq
  | cons o rest ih =>
    simp only [firstDuplicated, List.map_cons]
    by_cases hc : o.name ∈ seen
    · rw [if_pos (List.elem_iff.mpr hc)]
      constructor
      · intro h
        have hn : o.name = n := Option.some.inj h
        subst hn
        exact ⟨[], rest.map Object.name, by simp, List.nodup_nil, by simp, Or.inr hc⟩
      · rintro ⟨pre, post, heq, hnd, hns, hmem⟩
        cases pre with
        | nil =>
          simp only [List.nil_append] at heq
          rw [(List.cons.inj heq).1]
        | cons p pre2 =>
          simp only [List.cons_append] at heq
          have hp : o.name = p := (List.cons.inj heq).1
          subst hp
          exact absurd hc (hns o.name (List.mem_cons_self o.name pre2))
    · rw [if_neg (fun hb => hc (List.elem_iff.mp hb))]
      rw [ih]
      constructor
      · rintro ⟨pre2, post, heq, hnd2, hns2, hmem2⟩
        refine ⟨o.name :: pre2, post, ?_, ?_, ?_, ?_⟩
        · rw [List.cons_append, heq]
        · exact List.nodup_cons.mpr
            ⟨fun hmem => (hns2 o.name hmem) (List.mem_cons_self o.name seen), hnd2⟩
        · intro x hx
          rcases List.mem_cons.mp hx with rfl | hx2
          · exact hc
          · exact fun hxs => (hns2 x hx2) (List.mem_cons_of_mem o.name hxs)
        · rcases hmem2 with hp | hs
          · exact Or.inl (List.mem_cons_of_mem o.name hp)
          · rcases List.mem_cons.mp hs with rfl | hs2
            · exact Or.inl (List.mem_cons_self o.name pre2)
            · exact Or.inr hs2
      · rintro ⟨pre, post, heq, hnd, hns, hmem⟩
        cases pre with
        | nil =>
          simp only [List.nil_append] at heq
          have hn : o.name = n := (List.cons.inj heq).1
          subst hn
          rcases hmem with hp | hs
          · exact absurd hp (List.not_mem_nil o.name)
          · exact absurd hs hc
        | cons p pre2 =>
          simp only [List.cons_append] at heq
          have hp : o.name = p := (List.cons.inj heq).1
          subst hp
          have heq2 : rest.map Object.name = pre2 ++ n :: post :=
            (List.cons.inj heq).2
          have hnd2 := List.nodup_cons.mp hnd
          refine ⟨pre2, post, heq2, hnd2.2, ?_, ?_⟩
          · intro x hx hmem2
            rcases List.mem_cons.mp hmem2 with hxo | hxs
            · exact hnd2.1 (hxo ▸ hx)
            · exact (hns x (List.mem_cons_of_mem o.name hx)) hxs
          · rcases hmem with hp2 | hs
            · rcases List.mem_cons.mp hp2 with hno | hp3
              · exact Or.inr (by rw [hno]; exact List.mem_cons_self o.name seen)
              · exact Or.inl hp3
            · exact Or.inr (List.mem_cons_of_mem o.name hs)

theorem checkObjects_ok_iff (objects : List Object) :
    checkObjects objects = .ok () ↔ (objects.map Object.name).Nodup := by
  rcases h : firstDuplicated objects [] with _ | m
  · have h2 := (firstDuplicated_eq_none_iff objects []).mp h
    simp [checkObjects, h, h2.1]
  · have h2 := (firstDuplicated_eq_some_iff objects [] m).mp h
    obtain ⟨pre, post, heq, hnd, -, hmem⟩ := h2
    have hmem2 : m ∈ pre := by simpa using hmem
    constructor
    · intro hcontra
      simp only [checkObjects, h] at hcontra
      exact Except.noConfusion hcontra
    · intro hnodup
      exfalso
      rw [heq] at hnodup
      rcases List.nodup_append.mp hnodup with ⟨-, -, hdisj⟩
      exact hdisj hmem2 (List.mem_cons_self m post)

theorem firstRepeat_unique {pre1 post1 pre2 post2 : List String} {m n : String}
    (h : pre1 ++ m :: post1 = pre2 ++ n :: post2)
    (hnd1 : pre1.Nodup) (hm : m ∈ pre1)
    (hnd2 : pre2.Nodup) (hn : n ∈ pre2) : m = n := by
  rcases List.append_eq_append_iff.mp h with ⟨a, ha1, ha2⟩ | ⟨c, hc1, hc2⟩
  · cases a with
    | nil =>
      simp only [List.append_nil] at ha1
      exact (List.cons.inj ha2).1
    | cons b a2 =>
      have hb : m = b := (List.cons.inj ha2).1
      subst hb
      rw [ha1] at hnd2
      exfalso
      rcases List.nodup_append.mp hnd2 with ⟨-, -, hdisj⟩
      exact hdisj hm (List.mem_cons_self m a2)
  · cases c with
    | nil =>
      simp only [List.append_nil] at hc1
      exact ((List.cons.inj hc2).1).symm
    | cons b c2 =>
      have hb : n = b := (List.cons.inj hc2).1
      subst hb
      rw [hc1] at hnd1
      exfalso
      rcases List.nodup_append.mp hnd1 with ⟨-, -, hdisj⟩
      exact hdisj hn (List.mem_cons_self n c2)

/-- C7: after the tree walk, the global uniqueness check scans the
accumulated objects in accumulation order: it succeeds exactly when all
names are distinct; it fails with `DuplicatedObject n` exactly when `n` is
the first-encountered repeated name (the accumulated name list splits as
`pre ++ n :: post` with `pre` duplicate-free and `n ∈ pre`: the first
collision wins, later collisions are not collected); and when the walk
succeeded and all names are distinct, `ProjectParser::parse` returns the
complete accumulated object list in discovery order. -/
theorem c7_global_uniqueness_check (objects : List Object) :
    (checkObjects objects = .ok () ↔ (objects.map Object.name).Nodup) ∧
    (∀ n, checkObjects objects = .error (.duplicatedObject n) ↔
      ∃ pre post, objects.map Object.name = pre ++ n :: post ∧
        pre.Nodup ∧ n ∈ pre) ∧
    (∀ (reader : Reader) (fuel : Nat) (objs : List Object)
        (log : List (List String × String)),
      parseRecursively reader fuel ["src"] "lib" [] [] = .ok (objs, log) →
      (objs.map Object.name).Nodup →
      parserParse reader fuel = .ok objs) := by
  refine ⟨checkObjects_ok_iff objects, ?_, ?_⟩
  · intro n
    rcases h : firstDuplicated objects [] with _ | m
    · have h2 := (firstDuplicated_eq_none_iff objects []).mp h
      constructor
      · intro hcontra
        simp only [checkObjects, h] at hcontra
        exact Except.noConfusion hcontra
      · rintro ⟨pre, post, heq, hnd, hmem⟩
        exfalso
        have hnodup := h2.1
        rw [heq] at hnodup
        rcases List.nodup_append.mp hnodup with ⟨-, -, hdisj⟩
        exact hdisj hmem (List.mem_cons_self n post)
    · have h2 := (firstDuplicated_eq_some_iff objects [] m).mp h
      obtain ⟨pre1, post1, heq1, hnd1, -, hmem1⟩ := h2
      have hm1 : m ∈ pre1 := by simpa using hmem1
      constructor
      · intro he
        simp only [checkObjects, h] at he
        have h3 := Except.error.inj he
        injection h3 with hmn
        subst hmn
        exact ⟨pre1, post1, heq1, hnd1, hm1⟩
      · rintro ⟨pre, post, heq, hnd, hmem⟩
        have hmn : m = n :=
          firstRepeat_unique (heq1.symm.trans heq) hnd1 hm1 hnd hmem
        simp [checkObjects, h, hmn]
  · intro reader fuel objs log h hnd
    have hok : checkObjects objs = .ok () := (checkObjects_ok_iff objs).mpr hnd
    simp [parserParse, h, hok]

/-- C7 witness: on the example tree the crawl succeeds, the four object
names are distinct, and `parse` returns the discovery-ordered list. -/
theorem c7_global_uniqueness_check_witness :
    parserParse exampleReader 5 =
      .ok [⟨"Root", [], Option.none⟩, ⟨"A", [], Option.none⟩,
           ⟨"A1", [], Option.none⟩, ⟨"B", [], Option.none⟩] :=
  (c7_global_uniqueness_check []).2.2 exampleReader 5
    [⟨"Root", [], Option.none⟩, ⟨"A", [], Option.none⟩,
     ⟨"A1", [], Option.none⟩, ⟨"B", [], Option.none⟩]
    [(["src"], "lib"), (["src"], "a"), (["src", "a"], "a1"),
     (["src", "a"], "a2"), (["src"], "b")]
    rfl (by decide)

end QtAutoBinding
